import Mathlib

/-!
Shallow embedding of the github-metrics repository (Python) for checking the
natural-language specification against the code.

Conventions of the embedding:
  * timestamps are epoch seconds as `Int` (the code's timezone-aware
    `datetime` values; subtraction gives seconds);
  * review-time hours are `ℚ` (`total_seconds() / 3600`; all operations in
    the code are exact arithmetic on these values);
  * a dictionary field read with `.get(key)` is an `Option`; a read with
    `.get(key, default)` is an `Option` with the default applied at the use
    site, mirroring the source line;
  * a Python operation that can raise an uncaught exception on some input is
    embedded as an `Option`-returning function (`none` = the exception);
  * HTTP traffic is a trace: `execute_query` consumes one response per loop
    iteration, page fetching consumes one `PageResult` per request issued.
-/

namespace GithubMetrics

/-- Decision of the rate-limit handler `_handle_rate_limits`: either proceed
with the response, or wait the given number of seconds and retry. -/
inductive WaitDirective where
  | proceed
  | waitThenRetry (seconds : Int)
deriving DecidableEq, Repr

/-- String predicates of the embedding are computed over character lists,
by structural recursion. `strStarts s pre`: `s` begins with `pre` (Python's
`str.startswith`). -/
def strStarts (s pre : String) : Bool :=
  pre.toList.isPrefixOf s.toList

/-- `s` begins with `pre` once its first character is dropped: the
`^[+\- ]X` regex shapes of the diff scanner. -/
def tailStarts (s pre : String) : Bool :=
  pre.toList.isPrefixOf (s.toList.drop 1)

/-- Python's falsy `line.strip()`: the line is empty or all whitespace. -/
def isBlank (s : String) : Bool :=
  s.toList.all Char.isWhitespace

/-- Python's `c in s` for a single character. -/
def containsChar (s : String) (c : Char) : Bool :=
  s.toList.any fun d => d == c

/-- `pat` occurs as a contiguous run in the character list. -/
def containsSubAux (pat : List Char) : List Char → Bool
  | [] => pat.isEmpty
  | c :: rest => pat.isPrefixOf (c :: rest) || containsSubAux pat rest

/-- `pat` occurs as a substring of `s` (Python's `pat in s`). -/
def containsSub (s pat : String) : Bool :=
  containsSubAux pat.toList s.toList

/-- Python's `str.lower()`, over the ASCII range the code's needles use. -/
def lowerStr (s : String) : String :=
  String.mk (s.toList.map Char.toLower)

/-- One message of the body's `errors` array signals rate limiting
(client.py lines 192-193): lowercase the message, look for "rate limit" or
"abuse" as substrings. -/
def msgIsRateLimit (msg : String) : Bool :=
  let m := lowerStr msg
  containsSub m "rate limit" || containsSub m "abuse"

/-- An HTTP response as `_handle_rate_limits` and `execute_query` read it.
`remaining`/`resetTime`/`retryAfter` are the numeric rate-limit headers
(`none` = header absent or empty). `bodyErrors` is the `errors` array of the
JSON body (`none` = body not parseable JSON or no `errors` key; each entry is
the error's optional `message` field). `bodyData` models the `data` payload
of the envelope. -/
structure HttpResponse where
  remaining : Option Int
  resetTime : Option Int
  retryAfter : Option Int
  statusCode : Nat
  bodyErrors : Option (List (Option String))
  bodyData : List (String × String)
deriving DecidableEq, Repr

/-- The body-inspection part of `_handle_rate_limits` (client.py lines
186-202): any error message of the parsed body matches the rate-limit
wording. -/
def bodyHasRateLimitError (r : HttpResponse) : Bool :=
  match r.bodyErrors with
  | some errs => errs.any fun e => msgIsRateLimit (e.getD "")
  | none => false

/-- `_handle_rate_limits` (client.py lines 138-204) as a wait decision.
Priority: primary limit (remaining = 0 and a reset header) waits
`max 0 (reset − now)`; else a `retry-after` header waits that long; else a
200/403 response whose body carries a rate-limit error message waits the
fixed 60 seconds; else proceed. The Python function sleeps the wait itself
and returns a Bool; the embedding returns the directive. -/
def handleRateLimits (now : Int) (r : HttpResponse) : WaitDirective :=
  if r.remaining = some 0 ∧ r.resetTime.isSome then
    .waitThenRetry (max 0 (r.resetTime.getD 0 - now))
  else if r.retryAfter.isSome then
    .waitThenRetry (r.retryAfter.getD 0)
  else if (r.statusCode == 403 || r.statusCode == 200) && bodyHasRateLimitError r then
    .waitThenRetry 60
  else
    .proceed

/-- The Bool `_handle_rate_limits` returns: `true` exactly when it waited. -/
def rateLimited (now : Int) (r : HttpResponse) : Bool :=
  match handleRateLimits now r with
  | .proceed => false
  | .waitThenRetry _ => true

/-- Failure modes of `execute_query`: `httpStatusError` is the
`httpx.HTTPStatusError` surfaced after a non-2xx response on the final
attempt, `graphqlErrors` the `ValueError` raised for an `errors` array in the
body, `runtimeError` the `RuntimeError` after the attempt loop ends. -/
inductive QueryError where
  | httpStatusError (status : Nat)
  | graphqlErrors (msgs : List String)
  | runtimeError
deriving DecidableEq, Repr

/-- `raise_for_status` passes exactly on a 2xx status. -/
def is2xx (s : Nat) : Bool := 200 ≤ s && s < 300

/-- The body of `execute_query`'s `for attempt in range(max_retries)` loop
(client.py lines 81-133). `resp i` is the response the i-th POST returns;
`attempt` is the loop variable and `budget` the iterations left, so a
`continue` — rate-limited or backoff alike — advances `attempt` and consumes
one unit of `budget`. Sleeps are elided (they do not change the data
flow). -/
def runAttempts (now : Int) (resp : Nat → HttpResponse) :
    Nat → Nat → Except QueryError (List (String × String))
  | _, 0 => .error .runtimeError
  | attempt, b + 1 =>
    let r := resp attempt
    if rateLimited now r then
      runAttempts now resp (attempt + 1) b
    else if !is2xx r.statusCode then
      if b = 0 then .error (.httpStatusError r.statusCode)
      else runAttempts now resp (attempt + 1) b
    else
      match r.bodyErrors with
      | some errs => .error (.graphqlErrors (errs.map (·.getD "Unknown error")))
      | none => .ok r.bodyData

/-- `execute_query` (client.py lines 47-136): up to 5 attempts over the
response trace. -/
def execute_query (now : Int) (resp : Nat → HttpResponse) :
    Except QueryError (List (String × String)) :=
  runAttempts now resp 0 5

/-- The retry loop as §4.2 of the specification words it, for the refinement
comparison: a rate-limited response "retries the *same* attempt slot (does
not count against the 5-attempt budget)", so it consumes the next response of
the trace without consuming the budget; everything else behaves as in
`runAttempts`. -/
def executeQuerySameSlot (now : Int) :
    List HttpResponse → Nat → Except QueryError (List (String × String))
  | [], _ => .error .runtimeError
  | r :: rest, budget =>
    if rateLimited now r then
      executeQuerySameSlot now rest budget
    else
      match budget with
      | 0 => .error .runtimeError
      | b + 1 =>
        if !is2xx r.statusCode then
          if b = 0 then .error (.httpStatusError r.statusCode)
          else executeQuerySameSlot now rest b
        else
          match r.bodyErrors with
          | some errs => .error (.graphqlErrors (errs.map (·.getD "Unknown error")))
          | none => .ok r.bodyData

/-- A response hitting the primary rate limit: remaining 0, reset at epoch
second 1000. -/
def rlResp : HttpResponse := ⟨some 0, some 1000, none, 200, none, []⟩

/-- A successful response with no rate-limit signal and a data payload. -/
def okResp : HttpResponse := ⟨some 4999, none, none, 200, none, [("x", "1")]⟩

/-- A trace whose first five responses are rate-limited and whose later
responses succeed. -/
def c1Trace (i : Nat) : HttpResponse := if i < 5 then rlResp else okResp

/-! ## Data model (models.py) -/

/-- `PRResolution` (models.py lines 9-13). -/
inductive PRResolution where
  | merged
  | closedNotMerged
deriving DecidableEq, Repr

/-- `User` (models.py lines 16-20). -/
structure User where
  login : String
  name : Option String
deriving DecidableEq, Repr

/-- `PRMetrics` (models.py lines 23-60). -/
structure PRMetrics where
  number : Int
  title : String
  url : String
  base_branch : String
  author : User
  created_at : Int
  closed_at : Int
  merged_at : Option Int
  resolution : PRResolution
  changes_count : Int
  review_time_hours : ℚ
  commits_count : Int
  review_comments_count : Int
  comments_count : Int
  approvers : List User
  commenters : List User
  labels : List String
  description : String
deriving DecidableEq, Repr

/-- `RepositoryMetrics` (models.py lines 63-92). -/
structure RepositoryMetrics where
  repository : String
  period_start : Int
  period_end : Int
  pull_requests : List PRMetrics
deriving DecidableEq, Repr

/-- `RepositoryMetrics.total_prs` (models.py lines 73-76). -/
def RepositoryMetrics.total_prs (r : RepositoryMetrics) : Nat :=
  r.pull_requests.length

/-- `RepositoryMetrics.merged_prs` (models.py lines 78-83). -/
def RepositoryMetrics.merged_prs (r : RepositoryMetrics) : Nat :=
  r.pull_requests.countP fun pr => decide (pr.resolution = PRResolution.merged)

/-- `RepositoryMetrics.closed_prs` (models.py lines 85-92). -/
def RepositoryMetrics.closed_prs (r : RepositoryMetrics) : Nat :=
  r.pull_requests.countP fun pr => decide (pr.resolution = PRResolution.closedNotMerged)

/-! ## Raw GraphQL nodes as `_parse_pr_metrics` reads them (collector.py) -/

/-- A review's or PR's `author` object: optional `login` and `name` fields. -/
structure RawUser where
  login : Option String
  name : Option String
deriving DecidableEq, Repr

/-- One entry of `reviews.nodes`: optional `author` object and optional
`state` string. -/
structure RawReview where
  author : Option RawUser
  state : Option String
deriving DecidableEq, Repr

/-- One entry of `timelineItems.nodes`: its `__typename` and optional
`createdAt` timestamp (`none` = field missing, in which case
`datetime.fromisoformat("")` raises). -/
structure TimelineItem where
  typename : String
  createdAt : Option Int
deriving DecidableEq, Repr

/-- The `updatedAt` field as the pagination loop reads it (collector.py
lines 97-106). Its parse happens *outside* the per-record try/except (which
only wraps `_parse_pr_metrics`, lines 116-131), so its three outcomes
differ: a missing key or falsy (empty) value makes the loop skip the node
(`if not updated_at_str: continue`); a present value that
`datetime.fromisoformat` cannot parse raises an uncaught ValueError — and a
value that parses without a UTC offset makes the aware/naive comparison
`updated_at < start_date` raise an uncaught TypeError — either way aborting
the whole run; a well-formed offset-aware value yields epoch seconds. -/
inductive RawUpdatedAt where
  | missing
  | malformed
  | parsed (ts : Int)
deriving DecidableEq, Repr

/-- A raw PR node. Fields the code reads with `.get(key, default)` are
`Option`s with the default applied where the source line applies it; nested
`.get(...).get("nodes", [])` chains are flattened to the list they produce,
and `reviewThreads` keeps one optional `comments.totalCount` per thread.
`updatedAt` is three-valued because its parse sits outside the per-record
try/except (see `RawUpdatedAt`). -/
structure PRNode where
  number : Option Int
  title : Option String
  url : Option String
  baseRefName : Option String
  isDraft : Option Bool
  updatedAt : RawUpdatedAt
  author : Option RawUser
  createdAt : Option Int
  closedAt : Option Int
  mergedAt : Option Int
  additions : Option Int
  deletions : Option Int
  timelineItems : List TimelineItem
  commitsCount : Option Int
  commentsCount : Option Int
  reviewThreads : List (Option Int)
  reviews : List RawReview
  labels : List (Option String)
  body : Option String
deriving DecidableEq, Repr

/-! ## Review-time computation (collector.py lines 212-249) -/

/-- A lifecycle event kept by the timeline filter: `isClosed` is `true` for a
`ClosedEvent`, `false` for a `ReopenedEvent`. -/
structure TLEvent where
  isClosed : Bool
  ts : Int
deriving DecidableEq, Repr

/-- The event-collection loop (collector.py lines 216-227): keep
`ClosedEvent`/`ReopenedEvent` items; a kept item without a `createdAt`
makes `datetime.fromisoformat` raise, failing the whole record parse. -/
def parseEvents : List TimelineItem → Option (List TLEvent)
  | [] => some []
  | item :: rest =>
    if item.typename = "ClosedEvent" ∨ item.typename = "ReopenedEvent" then
      match item.createdAt with
      | none => none
      | some t =>
        (parseEvents rest).map fun es =>
          ⟨decide (item.typename = "ClosedEvent"), t⟩ :: es
    else
      parseEvents rest

/-- Stable insertion of an event into an ascending-by-timestamp list: the
event goes after every earlier element with a timestamp ≤ its own. -/
def insertEvent (e : TLEvent) : List TLEvent → List TLEvent
  | [] => [e]
  | x :: xs => if e.ts ≤ x.ts then e :: x :: xs else x :: insertEvent e xs

/-- `events.sort(key=lambda x: x["timestamp"])` (collector.py line 229):
a stable ascending sort by timestamp (insertion sort, matching Python's
stable sort semantically). -/
def sortEvents (events : List TLEvent) : List TLEvent :=
  events.foldr insertEvent []

/-- The open-interval loop (collector.py lines 232-244) over the sorted
events, threading `current_open_start` and the accumulated hours. A
`ClosedEvent` while `current_open_start` is `None` subtracts `None` from a
datetime, a `TypeError`: embedded as `none`. Returns the accumulated hours
and the final `current_open_start`. -/
def reviewLoop : Option Int → ℚ → List TLEvent → Option (ℚ × Option Int)
  | start, acc, [] => some (acc, start)
  | start, acc, e :: rest =>
    if e.isClosed then
      match start with
      | some s => reviewLoop none (acc + ((e.ts : ℚ) - (s : ℚ)) / 3600) rest
      | none => none
    else
      match start with
      | none => reviewLoop (some e.ts) acc rest
      | some s => reviewLoop (some s) acc rest

/-- The full review-time computation (collector.py lines 212-249): sort the
events, run the loop from `created_at`, and if an interval is still open at
the end add `(closed_at − current_open_start)` once. -/
def computeReviewTime (createdAt closedAt : Int) (events : List TLEvent) : Option ℚ :=
  match reviewLoop (some createdAt) 0 (sortEvents events) with
  | none => none
  | some (acc, none) => some acc
  | some (acc, some s) => some (acc + ((closedAt : ℚ) - (s : ℚ)) / 3600)

/-- The interval loop as §4.4 of the specification words it, for the
refinement comparison: a "closed" event contributes and clears the start only
"while an interval is open", so closing an already-closed interval is a
no-op instead of a failure. -/
def reviewLoopGuarded : Option Int → ℚ → List TLEvent → ℚ × Option Int
  | start, acc, [] => (acc, start)
  | start, acc, e :: rest =>
    if e.isClosed then
      match start with
      | some s => reviewLoopGuarded none (acc + ((e.ts : ℚ) - (s : ℚ)) / 3600) rest
      | none => reviewLoopGuarded none acc rest
    else
      match start with
      | none => reviewLoopGuarded (some e.ts) acc rest
      | some s => reviewLoopGuarded (some s) acc rest

/-- §4.4's guarded review-time algorithm end to end (the specification-side
definition compared against `computeReviewTime`). -/
def computeReviewTimeGuarded (createdAt closedAt : Int) (events : List TLEvent) : ℚ :=
  match reviewLoopGuarded (some createdAt) 0 (sortEvents events) with
  | (acc, none) => acc
  | (acc, some s) => acc + ((closedAt : ℚ) - (s : ℚ)) / 3600

/-- Well-formedness of a sorted event sequence: tracking the open flag
(initially `true`, the interval opened at `created_at`), no closed event
arrives while no interval is open. Exactly the sequences on which
`reviewLoop` cannot hit the `None` subtraction. -/
def okSeq : Bool → List TLEvent → Bool
  | _, [] => true
  | isOpen, e :: rest =>
    if e.isClosed then isOpen && okSeq false rest
    else okSeq true rest

/-! ## Approvers and commenters (collector.py lines 264-281) -/

/-- Python `set.add` on the pair: membership-based insertion (iteration
order of the Python set is unspecified; only membership is relied on). -/
def addToSet (s : List (String × Option String)) (p : String × Option String) :
    List (String × Option String) :=
  if p ∈ s then s else p :: s

/-- One iteration of the reviews loop (collector.py lines 269-278): skip a
review without an author object, without a `login` key, or with a falsy
(empty) login; an `APPROVED` state adds the (login, name) pair to the
approvers set, any other state (including a missing one) to the commenters
set. -/
def reviewStep
    (sets : List (String × Option String) × List (String × Option String))
    (review : RawReview) :
    List (String × Option String) × List (String × Option String) :=
  match review.author with
  | none => sets
  | some a =>
    match a.login with
    | none => sets
    | some login =>
      if login = "" then sets
      else if review.state = some "APPROVED" then
        (addToSet sets.1 (login, a.name), sets.2)
      else
        (sets.1, addToSet sets.2 (login, a.name))

/-- The reviews loop over all reviews, producing the approvers and
commenters sets. -/
def collectReviewSets (reviews : List RawReview) :
    List (String × Option String) × List (String × Option String) :=
  reviews.foldl reviewStep ([], [])

/-- The (login, displayName) identity a review contributes under, when it
contributes at all: the author's non-empty login paired with the author's
optional name. -/
def reviewKey (r : RawReview) : Option (String × Option String) :=
  match r.author with
  | none => none
  | some a =>
    match a.login with
    | none => none
    | some login => if login = "" then none else some (login, a.name)

/-! ## `_parse_pr_metrics` (collector.py lines 166-309) -/

/-- `_parse_pr_metrics`: one raw node to a `PRMetrics`, `none` when the code
raises (missing/empty `createdAt` or `closedAt`, a kept timeline item without
`createdAt`, or the review-time loop's `None` subtraction); the caller treats
`none` as a per-record skip. -/
def parsePRMetrics (node : PRNode) : Option PRMetrics := do
  let createdAt ← node.createdAt
  let closedAt ← node.closedAt
  let events ← parseEvents node.timelineItems
  let reviewTime ← computeReviewTime createdAt closedAt events
  let sets := collectReviewSets node.reviews
  some
    { number := node.number.getD 0
      title := node.title.getD ""
      url := node.url.getD ""
      base_branch := node.baseRefName.getD "unknown"
      author :=
        { login := (node.author.bind RawUser.login).getD "unknown"
          name := node.author.bind RawUser.name }
      created_at := createdAt
      closed_at := closedAt
      merged_at := node.mergedAt
      resolution :=
        if node.mergedAt.isSome then PRResolution.merged
        else PRResolution.closedNotMerged
      changes_count := node.additions.getD 0 + node.deletions.getD 0
      review_time_hours := reviewTime
      commits_count := node.commitsCount.getD 0
      review_comments_count := (node.reviewThreads.map (·.getD 0)).sum
      comments_count := node.commentsCount.getD 0
      approvers := sets.1.map fun p => ⟨p.1, p.2⟩
      commenters := sets.2.map fun p => ⟨p.1, p.2⟩
      labels := node.labels.filterMap id
      description := node.body.getD "" }

/-! ## `collect_pr_metrics` (collector.py lines 28-160) -/

/-- One page of the paginated PR query as the code reads it from the
response (`pageInfo` and `nodes`). The page trace stands for the server:
the loop consumes one `PageResult` per request it issues. -/
structure PageResult where
  nodes : List PRNode
  hasNextPage : Bool
  endCursor : Option String
deriving Repr

/-- The early-stop test (collector.py lines 90-113): a node reaches the
`updated_at < start_date` comparison only if it is not a draft and carries a
parseable `updatedAt`, and stops pagination when the comparison holds. -/
def stopCond (s : Int) (n : PRNode) : Bool :=
  !(n.isDraft.getD false) &&
    (match n.updatedAt with
     | .parsed u => decide (u < s)
     | _ => false)

/-- The node triggers the uncaught `updatedAt` exception (collector.py lines
100-106): not a draft, and its `updatedAt` is present but unparseable or
offset-less. -/
def abortsRun (n : PRNode) : Bool :=
  !(n.isDraft.getD false) &&
    (match n.updatedAt with
     | .malformed => true
     | _ => false)

/-- The uncaught exception escaping the pagination loop when a non-draft
node's `updatedAt` is present but unparseable or offset-less (ValueError or
TypeError at collector.py lines 100-106): it propagates out of
`collect_pr_metrics` and aborts the whole run. -/
inductive RunAbort where
  | updatedAtError
deriving DecidableEq, Repr

/-- The inner `for pr_node in pr_nodes` loop (collector.py lines 90-131):
skip drafts and nodes whose `updatedAt` is absent or falsy; abort the whole
run on a node whose present `updatedAt` fails to parse or compare (that
parse is outside the per-record try/except); stop (returning `true` as the
flag) on a node last updated before `s`; otherwise parse via
`_parse_pr_metrics`, appending on success and skipping on failure. -/
def processNodes (s : Int) (acc : List PRMetrics) :
    List PRNode → Except RunAbort (List PRMetrics × Bool)
  | [] => .ok (acc, false)
  | n :: rest =>
    if n.isDraft.getD false then processNodes s acc rest
    else
      match n.updatedAt with
      | .missing => processNodes s acc rest
      | .malformed => .error .updatedAtError
      | .parsed u =>
        if u < s then .ok (acc, true)
        else
          match parsePRMetrics n with
          | some m => processNodes s (acc ++ [m]) rest
          | none => processNodes s acc rest

/-- The `while has_next_page` pagination loop (collector.py lines 70-137)
over the page trace, counting the requests issued: each iteration fetches
one page and processes its nodes; an uncaught `updatedAt` exception aborts
the run there; otherwise the loop continues only if neither the early stop
fired nor the page reports `hasNextPage = false`. -/
def collectLoop (s : Int) : List PageResult → List PRMetrics →
    Except RunAbort (List PRMetrics) × Nat
  | [], acc => (.ok acc, 0)
  | page :: rest, acc =>
    match processNodes s acc page.nodes with
    | .error e => (.error e, 1)
    | .ok pr =>
      if pr.2 || !page.hasNextPage then (.ok pr.1, 1)
      else
        let r := collectLoop s rest pr.1
        (r.1, r.2 + 1)

/-- The final filter (collector.py lines 140-145):
`start_date <= pr.closed_at <= end_date` and, when a base branch is given,
`pr.base_branch == base_branch`. -/
def finalKeep (s e : Int) (bb : Option String) (pr : PRMetrics) : Bool :=
  decide (s ≤ pr.closed_at) && decide (pr.closed_at ≤ e) &&
    (match bb with
     | none => true
     | some b => decide (pr.base_branch = b))

/-- `collect_pr_metrics` (collector.py lines 28-160) over a page trace:
run the pagination loop, filter by the closed-at window and optional base
branch, return the report — or the uncaught `updatedAt` error aborting the
run — together with the number of page requests issued. Dates are already
epoch seconds, so the timezone normalization of lines 60-64 is the identity
here. The function performs no owner/repo validation: the identifiers are
used only for the query variables and the report's `"owner/repo"` label. -/
def collect_pr_metrics (owner repo : String) (startDate endDate : Int)
    (baseBranch : Option String) (pages : List PageResult) :
    Except RunAbort RepositoryMetrics × Nat :=
  let r := collectLoop startDate pages []
  (r.1.map fun collected =>
    { repository := owner ++ "/" ++ repo
      period_start := startDate
      period_end := endDate
      pull_requests := collected.filter (finalKeep startDate endDate baseBranch) },
   r.2)

/-- The draft/updatedAt/parse pipeline one non-stopping, non-aborting node
goes through: what the node contributes to the collected list. -/
def keepNode (s : Int) (n : PRNode) : Option PRMetrics :=
  if n.isDraft.getD false then none
  else
    match n.updatedAt with
    | .parsed u => if u < s then none else parsePRMetrics n
    | _ => none

/-- The page trace a full pagination run consumes: every page but the last
announces a next page, the last does not. -/
def pagesChained : List PageResult → Bool
  | [] => true
  | [pg] => !pg.hasNextPage
  | pg :: rest => pg.hasNextPage && pagesChained rest

/-- Modelled from the spec: §4.5's precondition "owner and repo must match
the host's identifier syntax (alphanumeric/hyphen for owner ...)". No such
check exists in collector.py; this definition states the spec's owner
syntax for the comparison. -/
def ownerValidSpec (o : String) : Bool :=
  o ≠ "" && o.toList.all fun c => c.isAlphanum || c = '-'

/-- Modelled from the spec: §4.5's "no embedded path separators for repo".
No such check exists in collector.py. -/
def repoHasPathSep (r : String) : Bool :=
  containsSub r "/"

/-! ## Diff test classification (test_analyzer.py) -/

/-- The line begins with `+`, `-` or a space: the `^[+\- ]` prefix of the
scan regexes. -/
def isDiffMarked (line : String) : Bool :=
  strStarts line "+" || strStarts line "-" || strStarts line " "

/-- The ASCII core of the regex class `\w`. -/
def isWordChar (c : Char) : Bool := c.isAlphanum || c = '_'

/-- The regex `def (test_\w+)` matching at the head of `cs`: the literal
`"def test_"` followed by at least one word character; the captured name is
`test_` plus the maximal word-character run. -/
def matchTestAt (cs : List Char) : Option String :=
  if cs.take 9 = "def test_".toList then
    let w := (cs.drop 9).takeWhile isWordChar
    if w.isEmpty then none else some ("test_" ++ String.mk w)
  else none

/-- `re.search(r"def (test_\w+)", line)`: the first position where the
pattern matches. -/
def findTestDef : List Char → Option String
  | [] => none
  | c :: rest =>
    match matchTestAt (c :: rest) with
    | some n => some n
    | none => findTestDef rest

/-- The test-definition scan of `_find_tests_in_diff` (test_analyzer.py
lines 86-89): the line matches `^[+\- ].*def (test_\w+)` and the name is the
first `def (test_\w+)` capture. -/
def testDefName (line : String) : Option String :=
  if isDiffMarked line then findTestDef line.toList else none

/-- The backward-walk regex `^[+\- ](def |class |@)`. -/
def matchesDecoLine (line : String) : Bool :=
  isDiffMarked line &&
    (tailStarts line "def " || tailStarts line "class " || tailStarts line "@")

/-- The backward decorator walk of `_extract_test_lines` (test_analyzer.py
lines 117-134), called with the function-definition index: walking down from
index `i − 1`, a `^[+\- ](def |class |@)` line containing `@` is collected
and the walk continues; one without `@` stops it; a blank line or a literal
`---`/`+++` stops it; any other line is passed over without being
collected. The collected lines are returned in file order. -/
def backWalk (lines : List String) : Nat → List String
  | 0 => []
  | i + 1 =>
    let line := lines.getD i ""
    if matchesDecoLine line then
      if containsChar line '@' then backWalk lines i ++ [line] else []
    else if isBlank line || line = "---" || line = "+++" then []
    else backWalk lines i

/-- Diff metadata skipped by the forward walk (test_analyzer.py line 147). -/
def isMetaLine (line : String) : Bool :=
  strStarts line "@@" || strStarts line "+++" || strStarts line "---"

/-- The forward-walk end regex `^[+\- ](def |class )`. -/
def matchesDefLine (line : String) : Bool :=
  isDiffMarked line && (tailStarts line "def " || tailStarts line "class ")

/-- `line.lstrip("+- ")` (test_analyzer.py lines 155, 163). -/
def strippedRest (line : String) : List Char :=
  line.toList.dropWhile fun c => c = '+' || c = '-' || c = ' '

/-- `len(line) - len(line.lstrip("+- "))`: the indentation measure of the
forward walk (diff marker included). -/
def leadingMarks (line : String) : Nat :=
  line.toList.length - (strippedRest line).length

/-- The forward body walk of `_extract_test_lines` (test_analyzer.py lines
139-174): skip metadata lines; stop before a `def `/`class ` line at an
indentation not deeper than the recorded level (or before any such line
while no level is recorded); record the level from the first line whose
`lstrip("+- ")` residue is non-blank; append the line and stop once the
accumulated span exceeds 200 lines. -/
def forwardWalk : List String → Option Nat → List String → List String
  | [], _, acc => acc
  | line :: rest, indentLevel, acc =>
    if isMetaLine line then forwardWalk rest indentLevel acc
    else if matchesDefLine line &&
        (match indentLevel with
         | some lvl => decide (leadingMarks line ≤ lvl)
         | none => true) then acc
    else
      let indentLevel' :=
        match indentLevel with
        | some lvl => some lvl
        | none =>
          if !isBlank line && !strStarts line "@@" &&
              !(strippedRest line).all Char.isWhitespace then
            some (leadingMarks line)
          else none
      let acc' := acc ++ [line]
      if acc'.length > 200 then acc' else forwardWalk rest indentLevel' acc'

/-- `_extract_test_lines` (test_analyzer.py lines 109-174): decorators from
the backward walk, the definition line itself, then the forward body walk. -/
def extractTestLines (lines : List String) (funcIdx : Nat) : List String :=
  forwardWalk (lines.drop (funcIdx + 1)) none
    (backWalk lines funcIdx ++ [lines.getD funcIdx ""])

/-- The all-additions check of `_find_tests_in_diff` (test_analyzer.py lines
95-100): every line of the span that is non-blank and not `+++` metadata
starts with `+`. -/
def isNewSpan (span : List String) : Bool :=
  span.all fun ln =>
    if isBlank ln || strStarts ln "+++" then true else strStarts ln "+"

/-- `test_statuses[test_name] = is_new`: Python dict assignment on an
insertion-ordered association list — overwrite the existing key in place or
append a new one. -/
def dictInsert (d : List (String × Bool)) (k : String) (v : Bool) :
    List (String × Bool) :=
  if d.any fun p => decide (p.1 = k) then
    d.map fun p => if p.1 = k then (k, v) else p
  else d ++ [(k, v)]

/-- Python dict lookup on the association list. -/
def dictLookup (d : List (String × Bool)) (k : String) : Option Bool :=
  (d.find? fun p => decide (p.1 = k)).map (·.2)

/-- One iteration of `_find_tests_in_diff`'s `while i < len(lines)` scan
(test_analyzer.py lines 81-104): at a test-definition hit, record whether the
extracted span is all-additions; otherwise leave the dict unchanged. -/
def scanStep (lines : List String) (d : List (String × Bool)) (i : Nat) :
    List (String × Bool) :=
  match testDefName (lines.getD i "") with
  | some name => dictInsert d name (isNewSpan (extractTestLines lines i))
  | none => d

/-- `_find_tests_in_diff` (test_analyzer.py lines 65-106) over the split
lines: scan every index top to bottom; later hits for the same name
overwrite earlier ones. -/
def findTestsInDiff (lines : List String) : List (String × Bool) :=
  (List.range lines.length).foldl (scanStep lines) []

/-- The indices at which the scan hits a test definition named `name`. -/
def hitIndices (lines : List String) (name : String) : List Nat :=
  (List.range lines.length).filter fun i =>
    decide (testDefName (lines.getD i "") = some name)

/-! ## Concrete inputs used by counterexamples and witnesses -/

/-- A well-formed raw node: closed one hour after creation, merged, no
lifecycle events. -/
def okNode : PRNode :=
  { number := some 1, title := some "t", url := some "u", baseRefName := some "main",
    isDraft := some false, updatedAt := .parsed 50, author := some ⟨some "bob", none⟩,
    createdAt := some 0, closedAt := some 3600, mergedAt := some 3600,
    additions := some 2, deletions := some 1, timelineItems := [],
    commitsCount := some 1, commentsCount := some 0, reviewThreads := [],
    reviews := [], labels := [], body := some "" }

/-- A malformed raw node: the required `createdAt` is missing, so
`datetime.fromisoformat("")` raises *inside* `_parse_pr_metrics` and the
record fails to parse (a caught, per-record failure). -/
def badNode : PRNode :=
  { okNode with number := some 2, createdAt := none }

/-- A raw node whose `updatedAt` is present but unparseable (or parseable
yet offset-less): reaching it raises outside the per-record try/except and
aborts the whole run. -/
def abortNode : PRNode :=
  { okNode with number := some 3, updatedAt := .malformed }

/-- A raw node whose event history is
[Closed at +2h, Reopened at +4h, Closed at +6h] relative to creation. -/
def c5Node : PRNode :=
  { okNode with
    closedAt := some 21600,
    timelineItems :=
      [⟨"ClosedEvent", some 7200⟩, ⟨"ReopenedEvent", some 14400⟩,
        ⟨"ClosedEvent", some 21600⟩] }

/-- A raw node whose event history holds two consecutive Closed events:
the second one arrives while no interval is open. -/
def c4Node : PRNode :=
  { okNode with
    closedAt := some 10800,
    timelineItems := [⟨"ClosedEvent", some 3600⟩, ⟨"ClosedEvent", some 7200⟩] }

/-- Reviews by one reviewer identity: first a COMMENTED review, then an
APPROVED one. -/
def c3Reviews : List RawReview :=
  [⟨some ⟨some "alice", none⟩, some "COMMENTED"⟩,
    ⟨some ⟨some "alice", none⟩, some "APPROVED"⟩]

/-! ## C10 -/

/-- C10: for every `RepositoryMetrics`, the derived total PR count equals the
derived merged count plus the derived closed-not-merged count — the two
resolution values partition the `pull_requests` list. -/
theorem c10_total_eq_merged_add_closed (r : RepositoryMetrics) :
    r.total_prs = r.merged_prs + r.closed_prs := by
  unfold RepositoryMetrics.total_prs RepositoryMetrics.merged_prs
    RepositoryMetrics.closed_prs
  induction r.pull_requests with
  | nil => rfl
  | cons pr rest ih =>
    simp only [List.countP_cons, List.length_cons, ih]
    cases h : pr.resolution <;> simp [h] <;> omega

/-! ## C5 -/

/-- C5: on a record created at T with events [Closed at T+2h, Reopened at
T+4h, Closed at T+6h] the parser computes reviewTimeHours = 4 (2h + 2h),
not 6; and with no close/reopen events the review time degenerates to
(closedAt − createdAt) in hours. -/
theorem c5_review_time_values :
    (parsePRMetrics c5Node).map (·.review_time_hours) = some 4
    ∧ (parsePRMetrics c5Node).map (·.review_time_hours) ≠ some 6
    ∧ ∀ c cl : Int, computeReviewTime c cl [] = some (((cl : ℚ) - (c : ℚ)) / 3600) := by
  refine ⟨?_, ?_, fun c cl => ?_⟩
  · simp [parsePRMetrics, c5Node, okNode, parseEvents, computeReviewTime, sortEvents,
      insertEvent, reviewLoop]
    norm_num
  · simp [parsePRMetrics, c5Node, okNode, parseEvents, computeReviewTime, sortEvents,
      insertEvent, reviewLoop]
    norm_num
  · simp [computeReviewTime, sortEvents, reviewLoop]

/-! ## C6 -/

/-- C6: `_handle_rate_limits` applies its rules in priority order: a zero
remaining-requests header together with a reset-at header yields
`WaitThenRetry (max 0 (resetEpoch − nowEpoch))` (so remaining = 0 with reset
5 seconds ahead yields a 5-second wait); else a retry-after header yields a
wait of that many seconds; else a 200/403 status whose JSON body carries an
errors message containing "rate limit" or "abuse" (case-insensitively)
yields the fixed 60-second wait; otherwise it proceeds with no wait. -/
theorem c6_rate_limit_rule_priority :
    (∀ (now reset : Int) (r : HttpResponse), r.remaining = some 0 →
      r.resetTime = some reset →
      handleRateLimits now r = .waitThenRetry (max 0 (reset - now)))
    ∧ (∀ (now w : Int) (r : HttpResponse),
      (r.remaining = some 0 → r.resetTime = none) → r.retryAfter = some w →
      handleRateLimits now r = .waitThenRetry w)
    ∧ (∀ (now : Int) (r : HttpResponse),
      (r.remaining = some 0 → r.resetTime = none) → r.retryAfter = none →
      (r.statusCode = 200 ∨ r.statusCode = 403) → bodyHasRateLimitError r = true →
      handleRateLimits now r = .waitThenRetry 60)
    ∧ (∀ (now : Int) (r : HttpResponse),
      (r.remaining = some 0 → r.resetTime = none) → r.retryAfter = none →
      ((r.statusCode = 200 ∨ r.statusCode = 403) → bodyHasRateLimitError r = false) →
      handleRateLimits now r = .proceed)
    ∧ handleRateLimits 100 ⟨some 0, some 105, none, 200, none, []⟩ = .waitThenRetry 5
    ∧ handleRateLimits 0
        ⟨none, none, none, 200, some [some "API rate limit exceeded"], []⟩ =
        .waitThenRetry 60 := by
  refine ⟨?_, ?_, ?_, ?_, by decide, by decide⟩
  · intro now reset r h1 h2
    simp [handleRateLimits, h1, h2]
  · intro now w r himp hra
    have h1 : ¬(r.remaining = some 0 ∧ r.resetTime.isSome = true) := by
      rintro ⟨a, b⟩
      rw [himp a] at b
      simp at b
    rw [handleRateLimits, if_neg h1]
    simp [hra]
  · intro now r himp hra hs hb
    have h1 : ¬(r.remaining = some 0 ∧ r.resetTime.isSome = true) := by
      rintro ⟨a, b⟩
      rw [himp a] at b
      simp at b
    rw [handleRateLimits, if_neg h1]
    rcases hs with h | h <;> simp [hra, h, hb]
  · intro now r himp hra hbody
    have h1 : ¬(r.remaining = some 0 ∧ r.resetTime.isSome = true) := by
      rintro ⟨a, b⟩
      rw [himp a] at b
      simp at b
    have h3 : ((r.statusCode == 403 || r.statusCode == 200) &&
        bodyHasRateLimitError r) = false := by
      by_cases hs : r.statusCode = 200 ∨ r.statusCode = 403
      · simp [hbody hs]
      · push_neg at hs
        simp [hs.1, hs.2]
    rw [handleRateLimits, if_neg h1]
    simp [hra, h3]

/-! ## C1 -/

/-- C1 counterexample: on a trace whose first five responses are
rate-limited and whose sixth succeeds, `execute_query` exhausts its budget
and fails with the RuntimeError, while the specification's same-slot retry
loop — rate-limited responses not counting against the 5-attempt budget —
succeeds on the very same responses. The rate-limited responses therefore do
consume attempt slots. -/
theorem c1_counterexample_rate_limit_consumes_budget :
    execute_query 0 c1Trace = .error .runtimeError
    ∧ executeQuerySameSlot 0 (List.replicate 5 rlResp ++ [okResp]) 5 =
        .ok [("x", "1")] :=
  ⟨by rfl, by rfl⟩

/-- C1 (amended): in `execute_query`, a rate-limited response makes the loop
continue into the next attempt slot — the `continue` advances the
`for attempt in range(5)` counter, so each rate-limited response consumes
one unit of the 5-attempt budget like any failed attempt. -/
theorem c1_rate_limited_consumes_attempt_slot
    (now : Int) (resp : Nat → HttpResponse) (attempt b : Nat)
    (h : rateLimited now (resp attempt) = true) :
    runAttempts now resp attempt (b + 1) = runAttempts now resp (attempt + 1) b := by
  rw [runAttempts, if_pos h]

/-- Witness for C1's amended theorem at a concrete rate-limited trace. -/
theorem c1_witness_first_slot_consumed :
    runAttempts 0 c1Trace 0 5 = runAttempts 0 c1Trace 1 4 :=
  c1_rate_limited_consumes_attempt_slot 0 c1Trace 0 4 (by decide)

/-! ## C2 -/

/-- C2 counterexample: with an owner failing the spec's alphanumeric/hyphen
syntax and a repo containing a path separator, `collect_pr_metrics` still
issues a page fetch (one page of the trace is consumed) and returns a normal
report — no validation-error happens before network I/O. -/
theorem c2_counterexample_no_validation_before_fetch :
    ownerValidSpec "bad owner!" = false
    ∧ repoHasPathSep "a/b" = true
    ∧ (collect_pr_metrics "bad owner!" "a/b" 0 100 none [⟨[], false, none⟩]).2 = 1 :=
  ⟨by decide, by decide, by rfl⟩

/-- C2 (amended): `collect_pr_metrics` performs no owner/repo validation at
all: whatever the identifier strings are, the first page fetch is always
issued. -/
theorem c2_first_fetch_always_issued
    (owner repo : String) (s e : Int) (bb : Option String)
    (p : PageResult) (ps : List PageResult) :
    1 ≤ (collect_pr_metrics owner repo s e bb (p :: ps)).2 := by
  show 1 ≤ (collectLoop s (p :: ps) []).2
  rw [collectLoop]
  split
  · exact Nat.le_refl 1
  · split
    · exact Nat.le_refl 1
    · exact Nat.le_add_left 1 _

/-! ## C3 counterexample -/

/-- C3 counterexample: the reviewer identity ("alice", no display name)
leaves a COMMENTED review and then an APPROVED review, and lands in both the
approvers set and the commenters set — the two are not mutually exclusive,
and the verdict is not determined by the latest-considered review state. -/
theorem c3_counterexample_reviewer_in_both_sets :
    ("alice", (none : Option String)) ∈ (collectReviewSets c3Reviews).1
    ∧ ("alice", (none : Option String)) ∈ (collectReviewSets c3Reviews).2 := by
  decide

/-! ## C4 counterexample -/

/-- C4 counterexample: a sorted event history with two Closed events and no
Reopened between them — the second "closed" arrives while no interval is
open — makes the review-time computation fail (the code subtracts `None`
from a datetime, a TypeError), so the record does not parse: the computation
is not total over such sequences. -/
theorem c4_counterexample_closed_while_closed_fails :
    computeReviewTime 0 10800 [⟨true, 3600⟩, ⟨true, 7200⟩] = none
    ∧ parsePRMetrics c4Node = none := by
  exact ⟨by decide, by decide⟩

/-! ## C4 (amended) -/

/-- On a sorted sequence where no closed event arrives while no interval is
open, the code's interval loop never hits the `None` subtraction and agrees
with the specification's guarded loop. -/
theorem reviewLoop_eq_guarded (evs : List TLEvent) :
    ∀ (start : Option Int) (acc : ℚ), okSeq start.isSome evs = true →
      reviewLoop start acc evs = some (reviewLoopGuarded start acc evs) := by
  induction evs with
  | nil => intro start acc _; rfl
  | cons e rest ih =>
    intro start acc h
    rw [okSeq] at h
    by_cases hc : e.isClosed
    · rw [if_pos hc] at h
      simp only [Bool.and_eq_true] at h
      cases start with
      | none => simp at h
      | some s =>
        simp only [reviewLoop, reviewLoopGuarded, if_pos hc]
        exact ih none _ h.2
    · rw [if_neg hc] at h
      rw [Bool.not_eq_true] at hc
      cases start with
      | none =>
        simp only [reviewLoop, reviewLoopGuarded, hc]
        exact ih (some e.ts) acc h
      | some s =>
        simp only [reviewLoop, reviewLoopGuarded, hc]
        exact ih (some s) acc h

/-- C4 (amended): the review-time computation is total and matches §4.4's
guarded interval algorithm on every ascending-sorted sequence in which each
"closed" event arrives while an interval is open (each contributes
`eventTime − intervalStart` once and closes the interval, handling zero, one
or multiple close/reopen cycles); a "closed" event arriving while no
interval is open instead makes the computation fail, as the counterexample
shows. -/
theorem c4_guarded_sequences_total_and_conform
    (c cl : Int) (evs : List TLEvent)
    (h : okSeq true (sortEvents evs) = true) :
    computeReviewTime c cl evs = some (computeReviewTimeGuarded c cl evs) := by
  unfold computeReviewTime computeReviewTimeGuarded
  rw [reviewLoop_eq_guarded (sortEvents evs) (some c) 0 h]
  rcases hg : reviewLoopGuarded (some c) 0 (sortEvents evs) with ⟨acc, st⟩
  cases st <;> simp

/-- Witness for C4's amended theorem: the two-cycle history
[Closed at +2h, Reopened at +4h, Closed at +6h] is well-formed and the code
agrees with the guarded algorithm on it. -/
theorem c4_witness_two_cycle_sequence :
    computeReviewTime 0 21600 [⟨true, 7200⟩, ⟨false, 14400⟩, ⟨true, 21600⟩] =
      some (computeReviewTimeGuarded 0 21600
        [⟨true, 7200⟩, ⟨false, 14400⟩, ⟨true, 21600⟩]) :=
  c4_guarded_sequences_total_and_conform 0 21600 _ (by decide)

/-! ## C3 (amended) -/

/-- Membership in the set-insertion. -/
theorem mem_addToSet {s : List (String × Option String)}
    {q p : String × Option String} :
    p ∈ addToSet s q ↔ p = q ∨ p ∈ s := by
  unfold addToSet
  split
  · rename_i hq
    constructor
    · exact Or.inr
    · rintro (rfl | h)
      · exact hq
      · exact h
  · simp [List.mem_cons]

/-- What one review adds to the approvers set: its identity pair, when the
review is APPROVED. -/
theorem reviewStep_mem_fst (init) (r : RawReview) (p : String × Option String) :
    p ∈ (reviewStep init r).1 ↔
      p ∈ init.1 ∨ (reviewKey r = some p ∧ r.state = some "APPROVED") := by
  rcases ha : r.author with _ | a
  · simp [reviewStep, reviewKey, ha]
  · rcases hl : a.login with _ | login
    · simp [reviewStep, reviewKey, ha, hl]
    · by_cases he : login = ""
      · simp [reviewStep, reviewKey, ha, hl, he]
      · by_cases hs : r.state = some "APPROVED"
        · simp [reviewStep, reviewKey, ha, hl, he, hs, mem_addToSet]
          tauto
        · simp [reviewStep, reviewKey, ha, hl, he, hs]

/-- What one review adds to the commenters set: its identity pair, when the
review is not APPROVED. -/
theorem reviewStep_mem_snd (init) (r : RawReview) (p : String × Option String) :
    p ∈ (reviewStep init r).2 ↔
      p ∈ init.2 ∨ (reviewKey r = some p ∧ ¬r.state = some "APPROVED") := by
  rcases ha : r.author with _ | a
  · simp [reviewStep, reviewKey, ha]
  · rcases hl : a.login with _ | login
    · simp [reviewStep, reviewKey, ha, hl]
    · by_cases he : login = ""
      · simp [reviewStep, reviewKey, ha, hl, he]
      · by_cases hs : r.state = some "APPROVED"
        · simp [reviewStep, reviewKey, ha, hl, he, hs]
        · simp [reviewStep, reviewKey, ha, hl, he, hs, mem_addToSet]
          tauto

/-- Membership in the folded review sets, for any starting accumulator. -/
theorem mem_reviewFold (reviews : List RawReview) :
    ∀ (init : List (String × Option String) × List (String × Option String))
      (p : String × Option String),
      (p ∈ (List.foldl reviewStep init reviews).1 ↔
        p ∈ init.1 ∨ ∃ r ∈ reviews, reviewKey r = some p ∧ r.state = some "APPROVED")
      ∧ (p ∈ (List.foldl reviewStep init reviews).2 ↔
        p ∈ init.2 ∨ ∃ r ∈ reviews, reviewKey r = some p ∧ ¬r.state = some "APPROVED") := by
  induction reviews with
  | nil => intro init p; simp
  | cons r rest ih =>
    intro init p
    rw [List.foldl_cons]
    refine ⟨?_, ?_⟩
    · rw [(ih (reviewStep init r) p).1, reviewStep_mem_fst]
      rw [List.exists_mem_cons_iff]
      tauto
    · rw [(ih (reviewStep init r) p).2, reviewStep_mem_snd]
      rw [List.exists_mem_cons_iff]
      tauto

/-- C3 (amended): a reviewer identity is in the approvers set iff *some* of
their reviews has state APPROVED, and in the commenters set iff *some* of
their reviews has a non-APPROVED state (so a reviewer who only ever left
non-approving reviews is a commenter and not an approver); the two sets are
therefore not mutually exclusive — a reviewer with both kinds of review is
in both, as the counterexample shows. -/
theorem c3_approver_commenter_membership (reviews : List RawReview)
    (p : String × Option String) :
    (p ∈ (collectReviewSets reviews).1 ↔
      ∃ r ∈ reviews, reviewKey r = some p ∧ r.state = some "APPROVED")
    ∧ (p ∈ (collectReviewSets reviews).2 ↔
      ∃ r ∈ reviews, reviewKey r = some p ∧ ¬r.state = some "APPROVED") := by
  have h := mem_reviewFold reviews ([], []) p
  simpa [collectReviewSets] using h

/-! ## C7 -/

/-- When the node loop completes without the uncaught `updatedAt` abort, its
stop flag is set exactly when some node of the page is a non-draft node with
a parsed `updatedAt` strictly before the window start. -/
theorem processNodes_flag (s : Int) :
    ∀ (ns : List PRNode) (acc : List PRMetrics) (res : List PRMetrics × Bool),
      processNodes s acc ns = .ok res → res.2 = ns.any (stopCond s) := by
  intro ns
  induction ns with
  | nil =>
    intro acc res h
    injection h with h
    rw [← h]
    rfl
  | cons n rest ih =>
    intro acc res h
    rw [List.any_cons]
    by_cases hd : n.isDraft.getD false
    · have hstop : stopCond s n = false := by simp [stopCond, hd]
      rw [hstop, Bool.false_or]
      simp only [processNodes, if_pos hd] at h
      exact ih acc res h
    · rcases hu : n.updatedAt with _ | _ | u
      · have hstop : stopCond s n = false := by simp [stopCond, hu]
        rw [hstop, Bool.false_or]
        simp only [processNodes, if_neg hd, hu] at h
        exact ih acc res h
      · simp only [processNodes, if_neg hd, hu] at h
        exact absurd h (by simp)
      · by_cases hlt : u < s
        · have hstop : stopCond s n = true := by simp [stopCond, hd, hu, hlt]
          simp only [processNodes, if_neg hd, hu, if_pos hlt] at h
          injection h with h
          rw [← h, hstop, Bool.true_or]
        · have hstop : stopCond s n = false := by simp [stopCond, hu, hlt]
          rw [hstop, Bool.false_or]
          cases hp : parsePRMetrics n <;>
            simp only [processNodes, if_neg hd, hu, if_neg hlt, hp] at h <;>
            exact ih _ res h

/-- Once a fetched page contains a stopping node, the pagination loop issues
no request beyond that page (an earlier abort can only end the run sooner,
never later). -/
theorem collectLoop_stops_at_page (s : Int) :
    ∀ (pages : List PageResult) (acc : List PRMetrics) (k : Nat) (pg : PageResult),
      pages[k]? = some pg → pg.nodes.any (stopCond s) = true →
      (collectLoop s pages acc).2 ≤ k + 1 := by
  intro pages
  induction pages with
  | nil => intro acc k pg h _; simp at h
  | cons page rest ih =>
    intro acc k pg hk hstop
    cases k with
    | zero =>
      rw [List.getElem?_cons_zero] at hk
      injection hk with hk
      subst hk
      rw [collectLoop]
      rcases hp : processNodes s acc page.nodes with e | pr
      · exact Nat.le_refl 1
      · have hflag : pr.2 = true := by
          rw [processNodes_flag s page.nodes acc pr hp]
          exact hstop
        simp only [hflag, Bool.true_or, if_pos]
        exact Nat.le_refl 1
    | succ k =>
      rw [List.getElem?_cons_succ] at hk
      rw [collectLoop]
      rcases hp : processNodes s acc page.nodes with e | pr
      · exact Nat.le_add_left 1 _
      · dsimp only
        split
        · exact Nat.le_add_left 1 _
        · exact Nat.succ_le_succ (ih _ k pg hk hstop)

/-- C7: the moment an encountered node's last-updated timestamp is strictly
earlier than the window start, no page beyond the one holding it is
requested; and the stop is only an optimization — every PR of the final
report of a completed run still satisfies the closedAt range filter (and the
optional branch filter). -/
theorem c7_early_stop_and_closed_at_filter :
    (∀ (s : Int) (pages : List PageResult) (acc : List PRMetrics) (k : Nat)
      (pg : PageResult), pages[k]? = some pg → pg.nodes.any (stopCond s) = true →
      (collectLoop s pages acc).2 ≤ k + 1)
    ∧ (∀ (owner repo : String) (s e : Int) (bb : Option String)
      (pages : List PageResult) (report : RepositoryMetrics) (pr : PRMetrics),
      (collect_pr_metrics owner repo s e bb pages).1 = .ok report →
      pr ∈ report.pull_requests →
      s ≤ pr.closed_at ∧ pr.closed_at ≤ e ∧
        (bb = none ∨ bb = some pr.base_branch)) := by
  constructor
  · intro s pages
    exact collectLoop_stops_at_page s pages
  · intro owner repo s e bb pages report pr hok hmem
    have hmap : (collect_pr_metrics owner repo s e bb pages).1 =
        ((collectLoop s pages []).1).map (fun collected =>
          { repository := owner ++ "/" ++ repo
            period_start := s
            period_end := e
            pull_requests := collected.filter (finalKeep s e bb) }) := rfl
    rw [hmap] at hok
    rcases hc : (collectLoop s pages []).1 with err | collected
    · rw [hc] at hok
      exact absurd hok (by simp [Except.map])
    · rw [hc] at hok
      simp only [Except.map] at hok
      injection hok with hok
      subst hok
      have h := List.mem_filter.mp hmem
      have hk := h.2
      unfold finalKeep at hk
      simp only [Bool.and_eq_true, decide_eq_true_eq] at hk
      refine ⟨hk.1.1, hk.1.2, ?_⟩
      rcases bb with _ | b
      · exact Or.inl rfl
      · right
        have hb : pr.base_branch = b := by simpa using hk.2
        rw [hb]

/-! ## C9 -/

/-- C9 counterexample: a single record whose `updatedAt` is present but
unparseable aborts the entire collection — `collect_pr_metrics` surfaces the
uncaught error instead of a report, although both its neighbour on the page
and the whole next page are valid records; only the aborting page's request
was issued. The run does abort because of one malformed record. -/
theorem c9_counterexample_malformed_updated_at_aborts_run :
    (collect_pr_metrics "o" "r" 0 10000 none
        [⟨[okNode, abortNode], true, some "c1"⟩, ⟨[okNode], false, none⟩]).1 =
      .error .updatedAtError
    ∧ (collect_pr_metrics "o" "r" 0 10000 none
        [⟨[okNode, abortNode], true, some "c1"⟩, ⟨[okNode], false, none⟩]).2 = 1 :=
  ⟨by rfl, by rfl⟩

/-- With no stopping and no aborting node in the list, the node loop
collects exactly the records the keep-pipeline (draft skip, updatedAt skip,
per-record parse) produces, in order, and sets no stop flag: a record that
fails to parse inside `_parse_pr_metrics` is skipped and the loop
continues. -/
theorem processNodes_no_stop (s : Int) :
    ∀ (ns : List PRNode) (acc : List PRMetrics),
      (∀ n ∈ ns, stopCond s n = false ∧ abortsRun n = false) →
      processNodes s acc ns = .ok (acc ++ ns.filterMap (keepNode s), false) := by
  intro ns
  induction ns with
  | nil => intro acc _; simp [processNodes]
  | cons n rest ih =>
    intro acc h
    have hn := h n (List.mem_cons_self n rest)
    have hrest : ∀ m ∈ rest, stopCond s m = false ∧ abortsRun m = false :=
      fun m hm => h m (List.mem_cons_of_mem n hm)
    by_cases hd : n.isDraft.getD false
    · have hkeep : keepNode s n = none := by simp [keepNode, hd]
      simp only [processNodes, if_pos hd, List.filterMap_cons, hkeep, ih _ hrest]
    · rcases hu : n.updatedAt with _ | _ | u
      · have hkeep : keepNode s n = none := by simp [keepNode, hd, hu]
        simp only [processNodes, if_neg hd, hu, List.filterMap_cons, hkeep,
          ih _ hrest]
      · exfalso
        have hab := hn.2
        simp [abortsRun, hd, hu] at hab
      · have hlt : ¬u < s := by
          have hst := hn.1
          simp only [stopCond, hd, hu] at hst
          simpa using hst
        have hkeep : keepNode s n = parsePRMetrics n := by
          simp [keepNode, hd, hu, hlt]
        cases hp : parsePRMetrics n with
        | none =>
          simp only [processNodes, if_neg hd, hu, if_neg hlt, hp,
            List.filterMap_cons, hkeep, ih _ hrest]
        | some m =>
          simp only [processNodes, if_neg hd, hu, if_neg hlt, hp,
            List.filterMap_cons, hkeep, ih _ hrest]
          simp

/-- A full run without early stop and without the `updatedAt` abort visits
every page of the trace and collects exactly what the keep-pipeline yields
on the concatenated nodes. -/
theorem collectLoop_no_stop_run (s : Int) :
    ∀ (pages : List PageResult) (acc : List PRMetrics),
      (∀ pg ∈ pages, ∀ n ∈ pg.nodes, stopCond s n = false ∧ abortsRun n = false) →
      pagesChained pages = true →
      collectLoop s pages acc =
        (.ok (acc ++ ((pages.map PageResult.nodes).flatten.filterMap (keepNode s))),
          pages.length) := by
  intro pages
  induction pages with
  | nil => intro acc _ _; simp [collectLoop]
  | cons pg rest ih =>
    intro acc hns hch
    have hpg : ∀ n ∈ pg.nodes, stopCond s n = false ∧ abortsRun n = false :=
      hns pg (List.mem_cons_self pg rest)
    rw [collectLoop, processNodes_no_stop s pg.nodes acc hpg]
    cases rest with
    | nil =>
      have hlast : pg.hasNextPage = false := by
        simpa [pagesChained] using hch
      simp [hlast]
    | cons pg2 rest2 =>
      have hch' : pg.hasNextPage = true ∧ pagesChained (pg2 :: rest2) = true := by
        simpa [pagesChained] using hch
      have hrest : ∀ p ∈ pg2 :: rest2, ∀ n ∈ p.nodes,
          stopCond s n = false ∧ abortsRun n = false :=
        fun p hp => hns p (List.mem_cons_of_mem _ hp)
      have hstep := ih (acc ++ pg.nodes.filterMap (keepNode s)) hrest hch'.2
      simp only [hch'.1, hstep, Bool.not_true, Bool.or_false, if_false]
      simp [List.append_assoc]

/-- C9 (amended): a record that fails to parse *inside* `_parse_pr_metrics`
(missing createdAt, unparseable createdAt/closedAt/timeline timestamps) is
skipped and the run continues across all pages — the report is exactly the
parseable records that pass the closedAt/branch filter, and such skips never
surface as errors. The recovery does not extend to `updatedAt`: that parse
happens outside the per-record try/except, so a present but unparseable (or
offset-less) `updatedAt` aborts the whole run, as the counterexample
shows. -/
theorem c9_parse_failures_skipped_run_continues
    (owner repo : String) (s e : Int) (bb : Option String)
    (pages : List PageResult)
    (hsafe : ∀ pg ∈ pages, ∀ n ∈ pg.nodes, stopCond s n = false ∧ abortsRun n = false)
    (hch : pagesChained pages = true) :
    (collect_pr_metrics owner repo s e bb pages).1 =
      .ok { repository := owner ++ "/" ++ repo
            period_start := s
            period_end := e
            pull_requests :=
              ((pages.map PageResult.nodes).flatten.filterMap (keepNode s)).filter
                (finalKeep s e bb) } := by
  show ((collectLoop s pages []).1).map _ = _
  rw [collectLoop_no_stop_run s pages [] hsafe hch]
  simp [Except.map]

/-- Witness for C9's amended theorem: a malformed record (missing createdAt)
amid a valid one does not abort collection; the report holds exactly the
valid record's filter-passing parse. -/
theorem c9_witness_mixed_records :
    (collect_pr_metrics "o" "r" 0 10000 none
        [⟨[okNode, badNode], false, none⟩]).1 =
      .ok { repository := "o" ++ "/" ++ "r"
            period_start := 0
            period_end := 10000
            pull_requests :=
              (([⟨[okNode, badNode], false, none⟩].map
                  PageResult.nodes).flatten.filterMap (keepNode 0)).filter
                (finalKeep 0 10000 none) } :=
  c9_parse_failures_skipped_run_continues "o" "r" 0 10000 none
    [⟨[okNode, badNode], false, none⟩] (by decide) (by decide)

/-! ## C8 -/

/-- Lookup on a non-empty association list. -/
theorem dictLookup_cons (q : String × Bool) (rest : List (String × Bool))
    (k : String) :
    dictLookup (q :: rest) k = if q.1 = k then some q.2 else dictLookup rest k := by
  by_cases hq : q.1 = k
  · rw [if_pos hq]
    simp [dictLookup, List.find?_cons_of_pos, hq]
  · rw [if_neg hq]
    unfold dictLookup
    rw [List.find?_cons_of_neg]
    simpa using hq

/-- After a dict assignment, looking up the assigned key yields the assigned
value. -/
theorem dictLookup_insert_self (d : List (String × Bool)) (k : String) (v : Bool) :
    dictLookup (dictInsert d k v) k = some v := by
  unfold dictInsert
  split
  · rename_i hany
    induction d with
    | nil => simp at hany
    | cons q d ih =>
      rw [List.map_cons]
      by_cases hq : q.1 = k
      · rw [if_pos hq, dictLookup_cons]
        simp
      · rw [if_neg hq, dictLookup_cons, if_neg hq]
        apply ih
        rw [List.any_cons] at hany
        rcases Bool.or_eq_true_iff.mp hany with h1 | h2
        · exact absurd (of_decide_eq_true h1) hq
        · exact h2
  · induction d with
    | nil =>
      rw [List.nil_append, dictLookup_cons]
      simp
    | cons q d ih =>
      rename_i hany
      rw [List.any_cons] at hany
      have hq : ¬q.1 = k := by
        intro hh
        exact hany (Bool.or_eq_true_iff.mpr (Or.inl (decide_eq_true hh)))
      have htail : ¬(d.any fun p => decide (p.1 = k)) = true := by
        intro hh
        exact hany (Bool.or_eq_true_iff.mpr (Or.inr hh))
      rw [List.cons_append, dictLookup_cons, if_neg hq]
      exact ih htail

/-- A dict assignment leaves the lookup of every other key unchanged. -/
theorem dictLookup_insert_other (d : List (String × Bool)) (k k' : String)
    (v : Bool) (hne : k' ≠ k) :
    dictLookup (dictInsert d k v) k' = dictLookup d k' := by
  unfold dictInsert
  split
  · rename_i hany
    clear hany
    induction d with
    | nil => rfl
    | cons q d ih =>
      rw [List.map_cons, dictLookup_cons, dictLookup_cons]
      by_cases hq : q.1 = k
      · rw [if_pos hq]
        have h1 : ¬(k, v).1 = k' := fun hh => hne hh.symm
        have h2 : ¬q.1 = k' := fun hh => hne (Eq.symm (hq.symm.trans hh))
        rw [if_neg h1, if_neg h2, ih]
      · rw [if_neg hq]
        by_cases hq' : q.1 = k'
        · rw [if_pos hq', if_pos hq']
        · rw [if_neg hq', if_neg hq', ih]
  · rename_i hany
    clear hany
    induction d with
    | nil =>
      rw [List.nil_append, dictLookup_cons]
      have h1 : ¬(k, v).1 = k' := fun hh => hne hh.symm
      rw [if_neg h1]
    | cons q d ih =>
      rw [List.cons_append, dictLookup_cons, dictLookup_cons]
      by_cases hq' : q.1 = k'
      · rw [if_pos hq', if_pos hq']
      · rw [if_neg hq', if_neg hq', ih]

/-- `getLast?` is stable under consing onto a non-empty list. -/
theorem getLast?_cons_of_some {l : List Nat} {j i : Nat}
    (h : l.getLast? = some j) : (i :: l).getLast? = some j := by
  cases l with
  | nil => simp at h
  | cons x xs => rw [List.getLast?_cons_cons]; exact h

/-- The dict the scan builds over any index list: under any starting dict,
the lookup of a name is the verdict recorded at the *last* hit for that
name, falling back to the starting dict when the name is never hit. -/
theorem scanFold_lookup (lines : List String) (name : String) :
    ∀ (idxs : List Nat) (d : List (String × Bool)),
      dictLookup (idxs.foldl (scanStep lines) d) name =
        match (idxs.filter fun i =>
            decide (testDefName (lines.getD i "") = some name)).getLast? with
        | some i => some (isNewSpan (extractTestLines lines i))
        | none => dictLookup d name := by
  intro idxs
  induction idxs with
  | nil => intro d; rfl
  | cons i idxs ih =>
    intro d
    rw [List.foldl_cons, ih (scanStep lines d i), List.filter_cons]
    by_cases hhit : testDefName (lines.getD i "") = some name
    · rw [if_pos (by simpa using hhit)]
      cases hlast : (idxs.filter fun i =>
          decide (testDefName (lines.getD i "") = some name)).getLast? with
      | some j => rw [getLast?_cons_of_some hlast]
      | none =>
        have hnil := List.getLast?_eq_none_iff.mp hlast
        rw [hnil]
        show dictLookup (scanStep lines d i) name = some _
        unfold scanStep
        rw [hhit]
        exact dictLookup_insert_self d name _
    · rw [if_neg (by simpa using hhit)]
      cases hlast : (idxs.filter fun i =>
          decide (testDefName (lines.getD i "") = some name)).getLast? with
      | some j => rfl
      | none =>
        show dictLookup (scanStep lines d i) name = dictLookup d name
        unfold scanStep
        cases ht : testDefName (lines.getD i "") with
        | none => rfl
        | some n' =>
          have hne : name ≠ n' := fun hh => hhit (by rw [ht, hh])
          exact dictLookup_insert_other d n' name _ hne

/-- C8: `_find_tests_in_diff` reports, for every test name it records, the
verdict of the last (top-to-bottom) scan hit for that name; and a scan hit's
verdict is New exactly when every non-blank, non-metadata line of its
collected decorator+definition+body span is an added line, Updated
otherwise. -/
theorem c8_last_scan_hit_wins_and_new_iff_all_added
    (lines : List String) (name : String) :
    dictLookup (findTestsInDiff lines) name =
      (hitIndices lines name).getLast?.map
        (fun i => isNewSpan (extractTestLines lines i))
    ∧ ∀ span : List String, isNewSpan span = true ↔
        ∀ ln ∈ span, isBlank ln = false → strStarts ln "+++" = false →
          strStarts ln "+" = true := by
  constructor
  · show dictLookup ((List.range lines.length).foldl (scanStep lines) []) name = _
    rw [scanFold_lookup lines name (List.range lines.length) []]
    show _ = (((List.range lines.length).filter fun i =>
        decide (testDefName (lines.getD i "") = some name)).getLast?).map _
    cases (List.range lines.length).filter (fun i =>
        decide (testDefName (lines.getD i "") = some name)) |>.getLast? with
    | some j => rfl
    | none => rfl
  · intro span
    rw [isNewSpan, List.all_eq_true]
    constructor
    · intro h ln hmem h1 h2
      have hln := h ln hmem
      rwa [if_neg (by simp [h1, h2])] at hln
    · intro h ln hmem
      by_cases h1 : isBlank ln
      · rw [if_pos (by simp [h1])]
      · by_cases h2 : strStarts ln "+++"
        · rw [if_pos (by simp [h2])]
        · rw [if_neg (by simp [h1, h2])]
          exact h ln hmem (by simpa using h1) (by simpa using h2)

end GithubMetrics
